import Mathlib

/-!
Verification development for the row-to-struct mapping engine of `sqlx.go`
(reflection-driven row-to-record mapping, field-map cache, and the generic
query functions `Select` and `Get`).

The embedding models:
  * Go struct types and destination types (`GoType`, `GoField`);
  * Go's map type as an association list with last-write-wins update
    (`mapSet` / `mapGet`), used both for the `fieldmap` and for the
    package-level `fieldmapCache`;
  * driver values (`Value`) and field types (`VType`); the driver's
    type-coercion in `sql.Rows.Scan` is abstracted as an exact type match,
    so a decode failure (`scanErr`) is possible exactly on a type mismatch;
  * the functions `BaseSliceType`, `BaseStructType`, `getFieldmap`,
    `getFields`, `StructScan` (slice version), `Row.Scan`,
    `Row.StructScan`, `Rows.StructScan`, `Select` and `Get`,
    each translated clause-by-clause from the source;
  * reflect panics (`Elem`/`Field`/`NumField` on unsuitable kinds) as the
    error constructor `GoError.panicked`;
  * an execution trace (`Trace`) recording whether the query was executed,
    whether a live cursor was obtained, and whether it was closed before
    returning, so that resource-lifetime properties can be stated.
-/

namespace Sqlx

/-- Field types of the record structs; driver values are coerced into these.
The driver coercion of database/sql is abstracted as an exact type match. -/
inductive VType where
  | int
  | str
deriving DecidableEq, Repr

/-- Decoded driver values. -/
inductive Value where
  | vint (i : Int)
  | vstr (s : String)
deriving DecidableEq, Repr

def valueType : Value → VType
  | .vint _ => .int
  | .vstr _ => .str

/-- The zero value of a field type (a freshly allocated struct field). -/
def zeroValue : VType → Value
  | .int => .vint 0
  | .str => .vstr ""

/-- One declared struct field: declared name, the db tag (empty string when
the field carries no tag, as with reflect StructTag Get), and its type. -/
structure GoField where
  name : String
  tag : String
  ftype : VType
deriving DecidableEq, Repr

/-- strings.ToLower, modelled by mapping Char.toLower over the character
list (String.toLower's loop is well-founded recursion, which the kernel
does not unfold; this structural form computes and agrees on the ASCII
identifiers Go field names are made of). -/
def lowerString (s : String) : String :=
  ⟨s.data.map Char.toLower⟩

/-- Name resolution of getFieldmap: name := strings.ToLower(f.Name);
if tag := f.Tag.Get("db"); tag != "" { name = tag }. -/
def resolveName (f : GoField) : String :=
  if f.tag ≠ "" then f.tag else lowerString f.name

/-- Go types as far as the mapping engine inspects them via reflect:
struct kinds, pointer kinds, slice kinds, and everything else (`prim`). -/
inductive GoType where
  | structT (fields : List GoField)
  | ptr (t : GoType)
  | slice (t : GoType)
  | prim (n : String)
deriving DecidableEq, Repr

def GoType.isPtr : GoType → Bool
  | .ptr _ => true
  | _ => false

/-- The error values the engine can produce.  `panicked` stands for a Go
runtime panic raised by reflect on an unsuitable kind. -/
inductive GoError where
  | notAPointer
  | notASlice
  | notAStruct
  | unmappedColumn (cname : String)
  | noRows
  | scanErr (field : Nat)
  | errMsg (s : String)
  | panicked (s : String)
deriving DecidableEq, Repr

/-- A Go map update `m[k] = v`: replace the binding in place if the key is
present, otherwise add it.  Last write wins, as with a real Go map. -/
def mapSet {κ α : Type} [DecidableEq κ] : List (κ × α) → κ → α → List (κ × α)
  | [], k, v => [(k, v)]
  | (k0, v0) :: rest, k, v =>
    if k0 = k then (k, v) :: rest else (k0, v0) :: mapSet rest k v

/-- A Go map lookup `m[k]`. -/
def mapGet {κ α : Type} [DecidableEq κ] : List (κ × α) → κ → Option α
  | [], _ => none
  | (k0, v0) :: rest, k => if k0 = k then some v0 else mapGet rest k

/-- A map of names to field positions for destination structs. -/
def Fieldmap : Type := List (String × Nat)

/-- The state of the package-level variable fieldmapCache, a cache of
fieldmaps for reflect Types. -/
def Cache : Type := List (GoType × Fieldmap)

/-- BaseSliceType: switch t.Kind() with case Ptr: t = t.Elem(); fallthrough;
case Slice: ; default: error.  Note the fallthrough: a pointer type is
unwrapped once and accepted without checking that its element is a slice. -/
def BaseSliceType : GoType → Except GoError GoType
  | .ptr t => .ok t
  | .slice t => .ok (.slice t)
  | _ => .error .notASlice

/-- BaseStructType: switch t.Kind() with case Ptr: t = t.Elem(); fallthrough;
case Struct: ; default: error.  Same fallthrough as BaseSliceType: a pointer
type is unwrapped once and accepted without checking its element. -/
def BaseStructType : GoType → Except GoError GoType
  | .ptr t => .ok t
  | .structT fs => .ok (.structT fs)
  | _ => .error .notAStruct

/-- reflect Type Elem, which panics unless the kind has an element type. -/
def typeElem : GoType → Except GoError GoType
  | .ptr t => .ok t
  | .slice t => .ok t
  | _ => .error (.panicked "reflect: Elem of invalid type")

/-- The loop body of getFieldmap: for i := 0; i < t.NumField(); i++
{ fm[resolveName(t.Field(i))] = i }, with i starting at the given offset. -/
def buildFrom : List GoField → Nat → Fieldmap → Fieldmap
  | [], _, fm => fm
  | f :: rest, i, fm => buildFrom rest (i + 1) (mapSet fm (resolveName f) i)

/-- The fieldmap built for a struct type's field list by the getFieldmap loop. -/
def buildFieldmap (flds : List GoField) : Fieldmap :=
  buildFrom flds 0 []

/-- getFieldmap: unwrap via BaseStructType, consult the cache, otherwise run
the field loop and store the result.  On a non-struct result of the
fallthrough-unwrap, t.NumField() panics in reflect. -/
def getFieldmap (t : GoType) (c : Cache) : Except GoError Fieldmap × Cache :=
  match BaseStructType t with
  | .error e => (.error e, c)
  | .ok t0 =>
    match mapGet c t0 with
    | some fm => (.ok fm, c)
    | none =>
      match t0 with
      | .structT flds =>
        (.ok (buildFieldmap flds), mapSet c t0 (buildFieldmap flds))
      | _ => (.error (.panicked "reflect: NumField of non-struct type"), c)

/-- getFields: the numeric fields corresponding to the columns; errors at the
first column name with no entry in the fieldmap. -/
def getFields (fm : Fieldmap) : List String → Except GoError (List Nat)
  | [] => .ok []
  | cname :: rest =>
    match mapGet fm cname with
    | none => .error (.unmappedColumn cname)
    | some i =>
      match getFields fm rest with
      | .error e => .error e
      | .ok tl => .ok (i :: tl)

/-- The combined effect of setValues plus the driver-level Scan: for each
column position j, decode the row's j-th value into field `fields[j]` of the
record.  Decoding is abstracted as an exact type match against the field's
declared type; decoding proceeds left to right and stops at the first
failure, leaving earlier fields already written (as convertAssign does
through the field pointers). -/
def scanInto (ftypes : List VType) :
    List Nat → List Value → List Value → Option GoError × List Value
  | [], [], rec => (none, rec)
  | f :: fs, v :: vs, rec =>
    match ftypes[f]? with
    | none => (some (.panicked "reflect: Field index out of range"), rec)
    | some t =>
      if valueType v = t then scanInto ftypes fs vs (rec.set f v)
      else (some (.scanErr f), rec)
  | _, _, rec => (some (.errMsg "sql: expected equal numbers of arguments"), rec)

/-- The zero record of a struct type: each field holds its type's zero value. -/
def zeroRecord (flds : List GoField) : List Value :=
  flds.map (fun f => zeroValue f.ftype)

/-- The row loop of StructScan: for rows.Next() { vp := reflect.New(base);
setValues; rows.Scan(values...); on error return it; append }.  Records
appended before a failing row stay in the accumulator. -/
def scanRows (flds : List GoField) (fields : List Nat) :
    List (List Value) → List (List Value) → Option GoError × List (List Value)
  | acc, [] => (none, acc)
  | acc, r :: rs =>
    match scanInto (flds.map GoField.ftype) fields r (zeroRecord flds) with
    | (some e, _) => (some e, acc)
    | (none, rec) => scanRows flds fields (acc ++ [rec]) rs

/-- A result set: the column names reported by the cursor and its rows. -/
structure ResultSet where
  columns : List String
  rows : List (List Value)
deriving DecidableEq, Repr

/-- StructScan (the slice version used by Select).  `destTy` is the type of
the dest argument, `dest0` the contents the destination slice already holds;
the result pairs the returned error with the final slice contents.  The
pointer-vs-value slice element distinction (isPtr) affects only whether vp
or v is appended; in this value model both append the same record. -/
def StructScan (destTy : GoType) (dest0 : List (List Value))
    (rs : ResultSet) (c : Cache) :
    (Option GoError × List (List Value)) × Cache :=
  match destTy with
  | .ptr u =>
    match BaseSliceType (.ptr u) with
    | .error e => ((some e, dest0), c)
    | .ok sliceT =>
      match typeElem sliceT with
      | .error e => ((some e, dest0), c)
      | .ok elemT =>
        match BaseStructType elemT with
        | .error e => ((some e, dest0), c)
        | .ok base =>
          match getFieldmap base c with
          | (.error e, c1) => ((some e, dest0), c1)
          | (.ok fm, c1) =>
            match getFields fm rs.columns with
            | .error e => ((some e, dest0), c1)
            | .ok fields =>
              match base with
              | .structT flds => (scanRows flds fields dest0 rs.rows, c1)
              | _ =>
                ((some (.panicked "reflect: Field of non-struct type"),
                  dest0), c1)
  | _ => ((some .notAPointer, dest0), c)

/-- Execution trace of one Select/Get call: whether the query was executed,
whether a live cursor was obtained, and whether it was closed on return. -/
structure Trace where
  queried : Bool
  obtained : Bool
  closed : Bool
deriving DecidableEq, Repr

/-- Select: run the query first; on a query error return it (no cursor was
obtained); otherwise hand the cursor to StructScan and close it via defer on
every path out. -/
def Select (destTy : GoType) (dest0 : List (List Value))
    (qres : Except GoError ResultSet) (c : Cache) :
    (Option GoError × List (List Value)) × Cache × Trace :=
  match qres with
  | .error e => ((some e, dest0), c, ⟨true, false, false⟩)
  | .ok rs =>
    match StructScan destTy dest0 rs c with
    | (r, c1) => (r, c1, ⟨true, true, true⟩)

/-- Row.Scan: return r.err if the query failed; otherwise defer rows.Close(),
return sql.ErrNoRows when there is no row, else Scan the first row into the
field pointers.  The returned Bool records whether the cursor was closed.
(The RawBytes check never fires here: the values are struct field pointers.) -/
def Row.Scan (ftypes : List VType) (fields : List Nat) (rec0 : List Value)
    (qres : Except GoError ResultSet) : (Option GoError × List Value) × Bool :=
  match qres with
  | .error e => ((some e, rec0), false)
  | .ok rs =>
    match rs.rows with
    | [] => ((some .noRows, rec0), true)
    | r :: _ => (scanInto ftypes fields r rec0, true)

/-- Row.StructScan: pointer check, BaseStructType, getFieldmap, r.Columns
(which surfaces a stored query error), getFields, then setValues and r.Scan.
Every early error return happens without closing the cursor; only r.Scan
closes it.  The returned Bool records whether the cursor was closed. -/
def Row.StructScan (destTy : GoType) (rec0 : List Value)
    (qres : Except GoError ResultSet) (c : Cache) :
    (Option GoError × List Value) × Cache × Bool :=
  match destTy with
  | .ptr u =>
    match BaseStructType u with
    | .error e => ((some e, rec0), c, false)
    | .ok base =>
      match getFieldmap base c with
      | (.error e, c1) => ((some e, rec0), c1, false)
      | (.ok fm, c1) =>
        match qres with
        | .error e => ((some e, rec0), c1, false)
        | .ok rs =>
          match getFields fm rs.columns with
          | .error e => ((some e, rec0), c1, false)
          | .ok fields =>
            match u with
            | .structT uflds =>
              match Row.Scan (uflds.map GoField.ftype) fields rec0 (.ok rs) with
              | (r, closed) => (r, c1, closed)
            | _ =>
              ((some (.panicked "reflect: Field of non-struct type"),
                rec0), c1, false)
  | _ => ((some .notAPointer, rec0), c, false)

/-- Whether a query result yielded a live cursor. -/
def cursorObtained (qres : Except GoError ResultSet) : Bool :=
  match qres with
  | .ok _ => true
  | .error _ => false

/-- Get: QueryRowx executes the query immediately and wraps the result in a
Row; Row.StructScan then scans into the destination record. -/
def Get (destTy : GoType) (rec0 : List Value)
    (qres : Except GoError ResultSet) (c : Cache) :
    (Option GoError × List Value) × Cache × Trace :=
  match Row.StructScan destTy rec0 qres c with
  | (r, c1, closed) => (r, c1, ⟨true, cursorObtained qres, closed⟩)

/-- The scan-position cache of an sqlx Rows value. -/
structure RowsState where
  started : Bool
  fields : List Nat
deriving DecidableEq, Repr

/-- sql.Rows.Scan on the current row of the cursor (none when Next was not
called or returned false). -/
def sqlRowsScan (ftypes : List VType) (fields : List Nat)
    (curRow : Option (List Value)) (rec : List Value) :
    Option GoError × List Value :=
  match curRow with
  | none => (some (.errMsg "sql: Scan called without calling Next"), rec)
  | some r => scanInto ftypes fields r rec

/-- Rows.StructScan: pointer check; on the first call resolve the fieldmap
and the column positions and cache them in the Rows value; then set the
field pointers and call r.Scan — whose return value is discarded — and
return nil. -/
def Rows.StructScan (destTy : GoType) (rec0 : List Value)
    (cols : List String) (curRow : Option (List Value))
    (st : RowsState) (c : Cache) :
    (Option GoError × List Value) × RowsState × Cache :=
  match destTy with
  | .ptr u =>
    if st.started then
      match u with
      | .structT uflds =>
        ((none, (sqlRowsScan (uflds.map GoField.ftype) st.fields curRow rec0).2),
         st, c)
      | _ => ((some (.panicked "reflect: Field of non-struct type"), rec0), st, c)
    else
      match getFieldmap u c with
      | (.error e, c1) => ((some e, rec0), st, c1)
      | (.ok fm, c1) =>
        match getFields fm cols with
        | .error e => ((some e, rec0), st, c1)
        | .ok fields =>
          match u with
          | .structT uflds =>
            ((none, (sqlRowsScan (uflds.map GoField.ftype) fields curRow rec0).2),
             ⟨true, fields⟩, c1)
          | _ =>
            ((some (.panicked "reflect: Field of non-struct type"), rec0),
             ⟨true, fields⟩, c1)
  | _ => ((some .notAPointer, rec0), st, c)

/-- The index of the last field whose resolved name is `n`, used to
characterise the last-write-wins fieldmap built by the getFieldmap loop. -/
def lastResolvedIdx (n : String) : List GoField → Option Nat
  | [] => none
  | f :: rest =>
    match lastResolvedIdx n rest with
    | some k => some (k + 1)
    | none => if resolveName f = n then some 0 else none

/-- One row scanned as the StructScan loop does: into a fresh zero record. -/
def scanOne (flds : List GoField) (fields : List Nat) (r : List Value) :
    Option GoError × List Value :=
  scanInto (flds.map GoField.ftype) fields r (zeroRecord flds)

/-- A cache state is well formed when every entry is keyed by a struct type
and holds the fieldmap the builder produces for it.  Every cache state
reachable in the program is well formed, since getFieldmap only ever stores
the fieldmap it just built for the unwrapped struct type. -/
def CacheWF (c : Cache) : Prop :=
  ∀ t fm, mapGet c t = some fm →
    ∃ flds, t = .structT flds ∧ fm = buildFieldmap flds

/-- The record type of the worked example of the spec:
ID int with db tag id, Name string without tag. -/
def exType : List GoField := [⟨"ID", "id", .int⟩, ⟨"Name", "", .str⟩]

/-- The declared type of the field a column name resolves to, if any. -/
def colFieldType (flds : List GoField) (cname : String) : Option VType :=
  (mapGet (buildFieldmap flds) cname).bind
    (fun i => (flds[i]?).map GoField.ftype)

/-- The field positions getFields computes when every column is mapped. -/
def resolveFields (flds : List GoField) (cols : List String) : List Nat :=
  cols.map (fun cn => (mapGet (buildFieldmap flds) cn).getD 0)

theorem mapGet_mapSet {κ α : Type} [DecidableEq κ]
    (m : List (κ × α)) (k k1 : κ) (v : α) :
    mapGet (mapSet m k v) k1 = if k = k1 then some v else mapGet m k1 := by
  induction m with
  | nil => simp [mapSet, mapGet]
  | cons p rest ih =>
    obtain ⟨k0, v0⟩ := p
    by_cases h0 : k0 = k
    · subst h0
      simp only [mapSet, if_pos rfl, mapGet]
      by_cases h1 : k0 = k1
      · simp [h1]
      · simp [h1]
    · simp only [mapSet, if_neg h0, mapGet, ih]
      by_cases h1 : k0 = k1
      · subst h1
        have h2 : ¬ k = k0 := fun hh => h0 hh.symm
        simp [h2]
      · simp [h1]

theorem mapGet_buildFrom (flds : List GoField) (i : Nat) (fm : Fieldmap)
    (n : String) :
    mapGet (buildFrom flds i fm) n =
      match lastResolvedIdx n flds with
      | some k => some (i + k)
      | none => mapGet fm n := by
  induction flds generalizing i fm with
  | nil => simp [buildFrom, lastResolvedIdx]
  | cons f rest ih =>
    simp only [buildFrom, lastResolvedIdx]
    rw [ih]
    cases h : lastResolvedIdx n rest with
    | some k =>
      simp only [h]
      congr 1
      omega
    | none =>
      simp only [h, mapGet_mapSet]
      by_cases hn : resolveName f = n
      · simp [hn]
      · simp [hn]

theorem mapGet_buildFieldmap (flds : List GoField) (n : String) :
    mapGet (buildFieldmap flds) n = lastResolvedIdx n flds := by
  rw [buildFieldmap, mapGet_buildFrom]
  cases h : lastResolvedIdx n flds <;> simp [mapGet]

theorem lastResolvedIdx_eq_none (n : String) (flds : List GoField) :
    lastResolvedIdx n flds = none ↔ ∀ f ∈ flds, resolveName f ≠ n := by
  induction flds with
  | nil => simp [lastResolvedIdx]
  | cons f rest ih =>
    simp only [lastResolvedIdx, List.forall_mem_cons]
    cases h : lastResolvedIdx n rest with
    | some k =>
      rw [h] at ih
      simp only [reduceCtorEq, false_iff] at ih
      constructor
      · intro hh; simp at hh
      · rintro ⟨-, h2⟩; exact absurd h2 ih
    | none =>
      rw [h] at ih
      by_cases hn : resolveName f = n
      · simp [hn]
      · have hrest := ih.mp rfl
        simp only [if_neg hn]
        exact iff_of_true trivial ⟨hn, hrest⟩

theorem lastResolvedIdx_eq_some (n : String) (flds : List GoField) (k : Nat) :
    lastResolvedIdx n flds = some k →
      ∃ f, flds[k]? = some f ∧ resolveName f = n ∧
        ∀ j f2, k < j → flds[j]? = some f2 → resolveName f2 ≠ n := by
  induction flds generalizing k with
  | nil => intro h; simp [lastResolvedIdx] at h
  | cons f rest ih =>
    intro h
    simp only [lastResolvedIdx] at h
    cases h0 : lastResolvedIdx n rest with
    | some k0 =>
      rw [h0] at h
      simp only [Option.some_inj] at h
      subst h
      obtain ⟨f0, hf0, hres, hmax⟩ := ih k0 h0
      refine ⟨f0, by simpa using hf0, hres, ?_⟩
      intro j f2 hj hget
      cases j with
      | zero => omega
      | succ j0 =>
        have hr : rest[j0]? = some f2 := by simpa using hget
        exact hmax j0 f2 (by omega) hr
    | none =>
      rw [h0] at h
      by_cases hn : resolveName f = n
      · rw [if_pos hn] at h
        simp only [Option.some_inj] at h
        subst h
        refine ⟨f, by simp, hn, ?_⟩
        intro j f2 hj hget
        cases j with
        | zero => omega
        | succ j0 =>
          have hr : rest[j0]? = some f2 := by simpa using hget
          exact (lastResolvedIdx_eq_none n rest).mp h0 f2 (List.getElem?_mem hr)
      · rw [if_neg hn] at h; cases h

theorem resolved_idx_unique (flds : List GoField) (i j : Nat) (f g : GoField)
    (hnd : (flds.map resolveName).Nodup)
    (hi : flds[i]? = some f) (hj : flds[j]? = some g)
    (he : resolveName f = resolveName g) : i = j := by
  have hmi : (flds.map resolveName)[i]? = some (resolveName f) := by
    rw [List.getElem?_map, hi]; rfl
  have hmj : (flds.map resolveName)[j]? = some (resolveName g) := by
    rw [List.getElem?_map, hj]; rfl
  have hjlen : j < (flds.map resolveName).length := by
    rw [List.length_map]
    exact List.getElem?_eq_some_iff.mp hj |>.1
  have hilen : i < (flds.map resolveName).length := by
    rw [List.length_map]
    exact List.getElem?_eq_some_iff.mp hi |>.1
  rcases Nat.lt_trichotomy i j with hlt | heq | hgt
  · exact absurd (hmi.trans (by rw [he, ← hmj]))
      (List.nodup_iff_getElem?_ne_getElem?.mp hnd i j hlt hjlen)
  · exact heq
  · exact absurd (hmj.trans (by rw [← he, ← hmi]))
      (List.nodup_iff_getElem?_ne_getElem?.mp hnd j i hgt hilen)

theorem lastResolvedIdx_of_nodup (flds : List GoField) (i : Nat) (f : GoField)
    (n : String) (hnd : (flds.map resolveName).Nodup)
    (hi : flds[i]? = some f) (hn : resolveName f = n) :
    lastResolvedIdx n flds = some i := by
  cases h : lastResolvedIdx n flds with
  | none =>
    exact absurd hn ((lastResolvedIdx_eq_none n flds).mp h f (List.getElem?_mem hi))
  | some k =>
    obtain ⟨g, hg, hgr, -⟩ := lastResolvedIdx_eq_some n flds k h
    rw [resolved_idx_unique flds i k f g hnd hi hg (by rw [hn, hgr])]

theorem getFields_eq_map (fm : Fieldmap) (cols : List String)
    (h : ∀ cn ∈ cols, (mapGet fm cn).isSome) :
    getFields fm cols = .ok (cols.map (fun cn => (mapGet fm cn).getD 0)) := by
  induction cols with
  | nil => rfl
  | cons cn rest ih =>
    obtain ⟨i, hi⟩ := Option.isSome_iff_exists.mp (h cn (by simp))
    have h2 := ih (fun x hx => h x (List.mem_cons_of_mem _ hx))
    simp [getFields, hi, h2]

theorem getFields_first_unmapped (fm : Fieldmap) (pre : List String)
    (bad : String) (rest : List String)
    (hpre : ∀ cn ∈ pre, (mapGet fm cn).isSome)
    (hbad : mapGet fm bad = none) :
    getFields fm (pre ++ bad :: rest) = .error (.unmappedColumn bad) := by
  induction pre with
  | nil => simp [getFields, hbad]
  | cons cn p ih =>
    obtain ⟨i, hi⟩ := Option.isSome_iff_exists.mp (hpre cn (by simp))
    have h2 := ih (fun x hx => hpre x (List.mem_cons_of_mem _ hx))
    simp [getFields, hi, h2]

theorem scanInto_snd_length (ftypes : List VType) (fs : List Nat)
    (row rec : List Value) :
    ((scanInto ftypes fs row rec).2).length = rec.length := by
  induction fs generalizing row rec with
  | nil => cases row <;> simp [scanInto]
  | cons f fs ih =>
    cases row with
    | nil => simp [scanInto]
    | cons v vs =>
      simp only [scanInto]
      cases h : ftypes[f]? with
      | none => simp
      | some t =>
        by_cases hv : valueType v = t
        · simp [hv, ih, List.length_set]
        · simp [hv]

theorem scanInto_not_mem (ftypes : List VType) (fs : List Nat)
    (row rec : List Value) (p : Nat) (hp : p ∉ fs) :
    ((scanInto ftypes fs row rec).2)[p]? = rec[p]? := by
  induction fs generalizing row rec with
  | nil => cases row <;> simp [scanInto]
  | cons f fs ih =>
    have hpf : p ≠ f := fun h => hp (h ▸ List.mem_cons_self f fs)
    have hp2 : p ∉ fs := fun h => hp (List.mem_cons_of_mem _ h)
    cases row with
    | nil => simp [scanInto]
    | cons v vs =>
      simp only [scanInto]
      cases h : ftypes[f]? with
      | none => simp
      | some t =>
        by_cases hv : valueType v = t
        · simp only [hv, eq_self_iff_true, if_true]
          rw [ih vs (rec.set f v) hp2]
          exact List.getElem?_set_ne (fun hh => hpf hh.symm)
        · simp [hv]

theorem scanInto_ok (ftypes : List VType) (fs : List Nat)
    (row rec : List Value)
    (hnd : fs.Nodup)
    (hlen : row.length = fs.length)
    (hty : ∀ (j f : Nat) (v : Value), fs[j]? = some f → row[j]? = some v →
      ∃ t, ftypes[f]? = some t ∧ valueType v = t)
    (hrec : ftypes.length ≤ rec.length) :
    (scanInto ftypes fs row rec).1 = none ∧
      ∀ (j f : Nat) (v : Value), fs[j]? = some f → row[j]? = some v →
        ((scanInto ftypes fs row rec).2)[f]? = some v := by
  induction fs generalizing row rec with
  | nil =>
    cases row with
    | nil => simp [scanInto]
    | cons v vs => simp at hlen
  | cons f fs ih =>
    cases row with
    | nil => simp at hlen
    | cons v vs =>
      obtain ⟨t, ht, hvt⟩ := hty 0 f v (by simp) (by simp)
      have hfnot := (List.nodup_cons.mp hnd).1
      have hnd2 := (List.nodup_cons.mp hnd).2
      have hlen2 : vs.length = fs.length := by simpa using hlen
      have hty2 : ∀ (j g : Nat) (w : Value), fs[j]? = some g → vs[j]? = some w →
          ∃ t2, ftypes[g]? = some t2 ∧ valueType w = t2 := by
        intro j g w hg hw
        exact hty (j + 1) g w (by simpa using hg) (by simpa using hw)
      have hrec2 : ftypes.length ≤ (rec.set f v).length := by
        rw [List.length_set]; exact hrec
      obtain ⟨ih1, ih2⟩ := ih vs (rec.set f v) hnd2 hlen2 hty2 hrec2
      have hred : scanInto ftypes (f :: fs) (v :: vs) rec
          = scanInto ftypes fs vs (rec.set f v) := by
        simp [scanInto, ht, hvt]
      constructor
      · rw [hred]; exact ih1
      · intro j g w hg hw
        cases j with
        | zero =>
          have hgf : f = g := by simpa using hg
          have hwv : v = w := by simpa using hw
          subst hgf
          subst hwv
          rw [hred, scanInto_not_mem ftypes fs vs (rec.set f v) f hfnot]
          have hf : f < rec.length := by
            have := (List.getElem?_eq_some_iff.mp ht).1
            omega
          exact List.getElem?_set_eq_of_lt v hf
        | succ j0 =>
          rw [hred]
          exact ih2 j0 g w (by simpa using hg) (by simpa using hw)

theorem scanRows_all_ok (flds : List GoField) (fields : List Nat)
    (acc : List (List Value)) (rows : List (List Value))
    (h : ∀ r ∈ rows, (scanOne flds fields r).1 = none) :
    scanRows flds fields acc rows =
      (none, acc ++ rows.map (fun r => (scanOne flds fields r).2)) := by
  induction rows generalizing acc with
  | nil => simp [scanRows]
  | cons r rs ih =>
    rcases hsc : scanInto (flds.map GoField.ftype) fields r (zeroRecord flds)
      with ⟨e, rec⟩
    have h1 : e = none := by
      have hh := h r (by simp)
      rw [scanOne, hsc] at hh
      exact hh
    subst h1
    simp only [scanRows, hsc]
    rw [ih (acc ++ [rec]) (fun x hx => h x (by simp [hx]))]
    simp [scanOne, hsc]

theorem scanRows_first_err (flds : List GoField) (fields : List Nat)
    (acc : List (List Value)) (good : List (List Value)) (bad : List Value)
    (rest : List (List Value)) (e : GoError)
    (hg : ∀ r ∈ good, (scanOne flds fields r).1 = none)
    (hb : (scanOne flds fields bad).1 = some e) :
    scanRows flds fields acc (good ++ bad :: rest) =
      (some e, acc ++ good.map (fun r => (scanOne flds fields r).2)) := by
  induction good generalizing acc with
  | nil =>
    rcases hsc : scanInto (flds.map GoField.ftype) fields bad (zeroRecord flds)
      with ⟨e0, rec⟩
    have h1 : e0 = some e := by
      rw [scanOne, hsc] at hb
      exact hb
    subst h1
    simp [scanRows, hsc]
  | cons r rs ih =>
    rcases hsc : scanInto (flds.map GoField.ftype) fields r (zeroRecord flds)
      with ⟨e0, rec⟩
    have h1 : e0 = none := by
      have hh := hg r (by simp)
      rw [scanOne, hsc] at hh
      exact hh
    subst h1
    simp only [List.cons_append, scanRows, hsc, List.append_eq]
    rw [ih (acc ++ [rec]) (fun x hx => hg x (by simp [hx]))]
    simp [scanOne, hsc]

theorem getFieldmap_struct_wf (flds : List GoField) (c : Cache)
    (hwf : CacheWF c) :
    ∃ c1, getFieldmap (.structT flds) c = (.ok (buildFieldmap flds), c1) ∧
      CacheWF c1 := by
  cases h : mapGet c (.structT flds) with
  | some fm =>
    obtain ⟨flds2, heq, hfm⟩ := hwf _ _ h
    have hf2 : flds2 = flds := by
      injection heq with hh
      exact hh.symm
    subst hf2
    subst hfm
    exact ⟨c, by simp [getFieldmap, BaseStructType, h], hwf⟩
  | none =>
    refine ⟨mapSet c (.structT flds) (buildFieldmap flds),
      by simp [getFieldmap, BaseStructType, h], ?_⟩
    intro t fm hget
    rw [mapGet_mapSet] at hget
    by_cases ht : (GoType.structT flds) = t
    · subst ht
      rw [if_pos rfl] at hget
      exact ⟨flds, rfl, (Option.some_inj.mp hget).symm⟩
    · rw [if_neg ht] at hget
      exact hwf t fm hget

theorem cacheWF_nil : CacheWF [] := by
  intro t fm h
  simp [mapGet] at h

theorem mapGet_buildFieldmap_of_mem (flds : List GoField) (cn : String)
    (h : cn ∈ flds.map resolveName) :
    ∃ i f, mapGet (buildFieldmap flds) cn = some i ∧
      flds[i]? = some f ∧ resolveName f = cn := by
  rw [mapGet_buildFieldmap]
  cases hl : lastResolvedIdx cn flds with
  | none =>
    obtain ⟨f, hf, hr⟩ := List.mem_map.mp h
    exact absurd hr ((lastResolvedIdx_eq_none cn flds).mp hl f hf)
  | some k =>
    obtain ⟨f, hf, hr, -⟩ := lastResolvedIdx_eq_some cn flds k hl
    exact ⟨k, f, rfl, hf, hr⟩

theorem mapGet_buildFieldmap_of_not_mem (flds : List GoField) (cn : String)
    (h : cn ∉ flds.map resolveName) :
    mapGet (buildFieldmap flds) cn = none := by
  rw [mapGet_buildFieldmap]
  cases hl : lastResolvedIdx cn flds with
  | none => rfl
  | some k =>
    obtain ⟨f, hf, hr, -⟩ := lastResolvedIdx_eq_some cn flds k hl
    exact absurd (List.mem_map.mpr ⟨f, List.getElem?_mem hf, hr⟩) h

theorem StructScan_pipeline (flds : List GoField) (dest0 : List (List Value))
    (rs : ResultSet) (c : Cache) (hwf : CacheWF c) :
    StructScan (.ptr (.slice (.structT flds))) dest0 rs c =
      ((match getFields (buildFieldmap flds) rs.columns with
        | .error e => (some e, dest0)
        | .ok fields => scanRows flds fields dest0 rs.rows),
       (getFieldmap (.structT flds) c).2) := by
  obtain ⟨c1, hgf, -⟩ := getFieldmap_struct_wf flds c hwf
  have hc1 : (getFieldmap (.structT flds) c).2 = c1 := by rw [hgf]
  rw [hc1]
  simp only [StructScan, BaseSliceType, typeElem, BaseStructType, hgf]
  cases h : getFields (buildFieldmap flds) rs.columns <;> simp [h]

theorem RowStructScan_pipeline (flds : List GoField) (rec0 : List Value)
    (rs : ResultSet) (c : Cache) (hwf : CacheWF c) :
    Row.StructScan (.ptr (.structT flds)) rec0 (.ok rs) c =
      (match getFields (buildFieldmap flds) rs.columns with
       | .error e => ((some e, rec0), (getFieldmap (.structT flds) c).2, false)
       | .ok fields =>
         ((Row.Scan (flds.map GoField.ftype) fields rec0 (.ok rs)).1,
          (getFieldmap (.structT flds) c).2,
          (Row.Scan (flds.map GoField.ftype) fields rec0 (.ok rs)).2)) := by
  obtain ⟨c1, hgf, -⟩ := getFieldmap_struct_wf flds c hwf
  have hc1 : (getFieldmap (.structT flds) c).2 = c1 := by rw [hgf]
  rw [hc1]
  simp only [Row.StructScan, BaseStructType, hgf]

theorem getFields_resolveFields (flds : List GoField) (cols : List String)
    (h : ∀ cn ∈ cols, cn ∈ flds.map resolveName) :
    getFields (buildFieldmap flds) cols = .ok (resolveFields flds cols) := by
  refine getFields_eq_map (buildFieldmap flds) cols ?_
  intro cn hcn
  obtain ⟨i, f, hi, -, -⟩ := mapGet_buildFieldmap_of_mem flds cn (h cn hcn)
  simp [hi]

theorem resolveFields_getElem? (flds : List GoField) (cols : List String)
    (j : Nat) :
    (resolveFields flds cols)[j]? =
      (cols[j]?).map (fun cn => (mapGet (buildFieldmap flds) cn).getD 0) := by
  simp [resolveFields]

theorem resolveFields_nodup (flds : List GoField) (cols : List String)
    (hcnd : cols.Nodup)
    (h : ∀ cn ∈ cols, cn ∈ flds.map resolveName) :
    (resolveFields flds cols).Nodup := by
  refine List.Nodup.map_on ?_ hcnd
  intro x hx y hy hxy
  obtain ⟨ix, fx, hmx, hgx, hrx⟩ := mapGet_buildFieldmap_of_mem flds x (h x hx)
  obtain ⟨iy, fy, hmy, hgy, hry⟩ := mapGet_buildFieldmap_of_mem flds y (h y hy)
  rw [hmx, hmy] at hxy
  simp only [Option.getD_some] at hxy
  subst hxy
  rw [hgx] at hgy
  have hfe : fx = fy := Option.some_inj.mp hgy
  rw [← hrx, hfe, hry]

/-- Claim C1: for every record type with distinct resolved field names and
every result set whose columns are exactly those resolved names in any
permutation (and whose rows decode into the corresponding field types),
Select succeeds, appends exactly one populated record per row to the
destination slice, and in every appended record the field whose resolved
name equals a given column name carries that column's value from the
corresponding source row — independent of the column order reported by the
cursor. -/
theorem Select_populates_per_row_any_column_order
    (flds : List GoField) (cols : List String) (rows : List (List Value))
    (dest0 : List (List Value)) (c : Cache)
    (hwf : CacheWF c)
    (hnd : (flds.map resolveName).Nodup)
    (hperm : cols.Perm (flds.map resolveName))
    (hlen : ∀ row ∈ rows, row.length = cols.length)
    (htyp : ∀ row ∈ rows, ∀ (j : Nat), (hj : j < cols.length) →
      (row[j]?).map valueType = colFieldType flds cols[j]) :
    ∃ c1 recs,
      Select (.ptr (.slice (.structT flds))) dest0 (.ok ⟨cols, rows⟩) c =
        ((none, dest0 ++ recs), c1, ⟨true, true, true⟩) ∧
      recs.length = rows.length ∧
      ∀ (r i j : Nat), (hr : r < rows.length) → (hi : i < flds.length) →
        (hj : j < cols.length) → resolveName flds[i] = cols[j] →
        ∃ rec row, recs[r]? = some rec ∧ rows[r]? = some row ∧
          rec[i]? = row[j]? := by
  have hmem : ∀ cn ∈ cols, cn ∈ flds.map resolveName :=
    fun cn h => hperm.mem_iff.mp h
  have hcnd : cols.Nodup := hnd.perm hperm.symm
  have hgf := getFields_resolveFields flds cols hmem
  have hfnd := resolveFields_nodup flds cols hcnd hmem
  have hrowlen : ∀ row ∈ rows, row.length = (resolveFields flds cols).length := by
    intro row h
    rw [resolveFields, List.length_map]
    exact hlen row h
  have hty : ∀ row ∈ rows, ∀ (j f : Nat) (v : Value),
      (resolveFields flds cols)[j]? = some f → row[j]? = some v →
      ∃ t, (flds.map GoField.ftype)[f]? = some t ∧ valueType v = t := by
    intro row hrow j f v hf hv
    have hj : j < cols.length := by
      have hh := (List.getElem?_eq_some_iff.mp hf).1
      rw [resolveFields, List.length_map] at hh
      exact hh
    have hcj : cols[j]? = some cols[j] := List.getElem?_eq_getElem hj
    have hcmem : cols[j] ∈ cols := List.getElem_mem hj
    obtain ⟨i0, g, hm, hg, hr⟩ :=
      mapGet_buildFieldmap_of_mem flds cols[j] (hmem cols[j] hcmem)
    have hfj : (resolveFields flds cols)[j]? = some i0 := by
      rw [resolveFields_getElem?, hcj]
      simp [hm]
    have hfi : f = i0 := by
      rw [hf] at hfj
      exact Option.some_inj.mp hfj
    subst hfi
    have h1 := htyp row hrow j hj
    rw [hv, colFieldType, hm] at h1
    simp [hg] at h1
    refine ⟨g.ftype, ?_, h1⟩
    rw [List.getElem?_map, hg]
    rfl
  have hscan : ∀ row ∈ rows,
      (scanOne flds (resolveFields flds cols) row).1 = none :=
    fun row h =>
      (scanInto_ok (flds.map GoField.ftype) (resolveFields flds cols)
        row (zeroRecord flds) hfnd (hrowlen row h) (hty row h)
        (by simp [zeroRecord])).1
  have hall := scanRows_all_ok flds (resolveFields flds cols) dest0 rows hscan
  have hpipe := StructScan_pipeline flds dest0 ⟨cols, rows⟩ c hwf
  refine ⟨(getFieldmap (.structT flds) c).2,
    rows.map (fun r => (scanOne flds (resolveFields flds cols) r).2),
    ?_, by simp, ?_⟩
  · have hsel : Select (.ptr (.slice (.structT flds))) dest0 (.ok ⟨cols, rows⟩) c
        = ((StructScan (.ptr (.slice (.structT flds))) dest0 ⟨cols, rows⟩ c).1,
           (StructScan (.ptr (.slice (.structT flds))) dest0 ⟨cols, rows⟩ c).2,
           (⟨true, true, true⟩ : Trace)) := rfl
    rw [hsel, hpipe]
    dsimp only
    rw [hgf]
    dsimp only
    rw [hall]
  · intro r i j hr hi hj hres
    have hrow : rows[r]? = some rows[r] := List.getElem?_eq_getElem hr
    have hrmem : rows[r] ∈ rows := List.getElem_mem hr
    have hrec :
        (rows.map (fun r2 => (scanOne flds (resolveFields flds cols) r2).2))[r]?
          = some ((scanOne flds (resolveFields flds cols) rows[r]).2) := by
      rw [List.getElem?_map, hrow]
      rfl
    have hcj : cols[j]? = some cols[j] := List.getElem?_eq_getElem hj
    have hmi : mapGet (buildFieldmap flds) cols[j] = some i := by
      rw [mapGet_buildFieldmap]
      exact lastResolvedIdx_of_nodup flds i flds[i] cols[j] hnd
        (List.getElem?_eq_getElem hi) hres
    have hfj : (resolveFields flds cols)[j]? = some i := by
      rw [resolveFields_getElem?, hcj]
      simp [hmi]
    have hjrow : j < rows[r].length := by
      rw [hlen rows[r] hrmem]
      exact hj
    have hvj : rows[r][j]? = some (rows[r][j]) := List.getElem?_eq_getElem hjrow
    refine ⟨_, rows[r], hrec, hrow, ?_⟩
    rw [hvj]
    exact (scanInto_ok (flds.map GoField.ftype) (resolveFields flds cols)
      rows[r] (zeroRecord flds) hfnd (hrowlen rows[r] hrmem)
      (hty rows[r] hrmem) (by simp [zeroRecord])).2 j i (rows[r][j]) hfj hvj

/-- Claim C2: when the result set contains a column name with no entry in
the destination type's fieldmap, Select and Get fail with the unmapped
column error naming the first unmapped column, and do so before any row is
scanned: the result is the same for every list of rows, and the destination
contents are returned unchanged (zero partially-constructed records). -/
theorem Select_Get_unmapped_column_fail_fast
    (flds : List GoField) (pre : List String) (bad : String)
    (rest : List String) (dest0 : List (List Value)) (rec0 : List Value)
    (c : Cache) (hwf : CacheWF c)
    (hpre : ∀ cn ∈ pre, cn ∈ flds.map resolveName)
    (hbad : bad ∉ flds.map resolveName) :
    ∀ rows : List (List Value),
      Select (.ptr (.slice (.structT flds))) dest0
          (.ok ⟨pre ++ bad :: rest, rows⟩) c
        = ((some (.unmappedColumn bad), dest0),
           (getFieldmap (.structT flds) c).2, ⟨true, true, true⟩) ∧
      Get (.ptr (.structT flds)) rec0 (.ok ⟨pre ++ bad :: rest, rows⟩) c
        = ((some (.unmappedColumn bad), rec0),
           (getFieldmap (.structT flds) c).2, ⟨true, true, false⟩) := by
  intro rows
  have hpre2 : ∀ cn ∈ pre, (mapGet (buildFieldmap flds) cn).isSome := by
    intro cn h
    obtain ⟨i, f, hi, -, -⟩ := mapGet_buildFieldmap_of_mem flds cn (hpre cn h)
    simp [hi]
  have hbad2 := mapGet_buildFieldmap_of_not_mem flds bad hbad
  have hgf := getFields_first_unmapped (buildFieldmap flds) pre bad rest
    hpre2 hbad2
  constructor
  · have hpipe := StructScan_pipeline flds dest0 ⟨pre ++ bad :: rest, rows⟩ c hwf
    have hsel : Select (.ptr (.slice (.structT flds))) dest0
          (.ok ⟨pre ++ bad :: rest, rows⟩) c
        = ((StructScan (.ptr (.slice (.structT flds))) dest0
             ⟨pre ++ bad :: rest, rows⟩ c).1,
           (StructScan (.ptr (.slice (.structT flds))) dest0
             ⟨pre ++ bad :: rest, rows⟩ c).2,
           (⟨true, true, true⟩ : Trace)) := rfl
    rw [hsel, hpipe]
    simp [hgf]
  · have hpipe := RowStructScan_pipeline flds rec0 ⟨pre ++ bad :: rest, rows⟩ c hwf
    have hget : Get (.ptr (.structT flds)) rec0
          (.ok ⟨pre ++ bad :: rest, rows⟩) c
        = ((Row.StructScan (.ptr (.structT flds)) rec0
             (.ok ⟨pre ++ bad :: rest, rows⟩) c).1,
           (Row.StructScan (.ptr (.structT flds)) rec0
             (.ok ⟨pre ++ bad :: rest, rows⟩) c).2.1,
           ⟨true, true,
            (Row.StructScan (.ptr (.structT flds)) rec0
              (.ok ⟨pre ++ bad :: rest, rows⟩) c).2.2⟩) := rfl
    rw [hget, hpipe]
    simp [hgf]

/-- Claim C3: with a pointer-to-struct destination whose columns are all
mapped, Get returns the no-rows error on a zero-row result; on a result
with one or more rows it scans exactly the first row into the destination
record, and every row beyond the first is ignored: the whole result equals
the result on the one-row truncation. -/
theorem Get_noRows_and_first_row_only
    (flds : List GoField) (cols : List String) (rec0 : List Value) (c : Cache)
    (hwf : CacheWF c)
    (hcols : ∀ cn ∈ cols, cn ∈ flds.map resolveName) :
    Get (.ptr (.structT flds)) rec0 (.ok ⟨cols, []⟩) c
      = ((some .noRows, rec0),
         (getFieldmap (.structT flds) c).2, ⟨true, true, true⟩) ∧
    ∀ (r : List Value) (rest : List (List Value)),
      Get (.ptr (.structT flds)) rec0 (.ok ⟨cols, r :: rest⟩) c
        = Get (.ptr (.structT flds)) rec0 (.ok ⟨cols, [r]⟩) c ∧
      (Get (.ptr (.structT flds)) rec0 (.ok ⟨cols, r :: rest⟩) c).1
        = scanInto (flds.map GoField.ftype) (resolveFields flds cols) r rec0 := by
  have hgf := getFields_resolveFields flds cols hcols
  have hget : ∀ rws : List (List Value),
      Get (.ptr (.structT flds)) rec0 (.ok ⟨cols, rws⟩) c
        = ((Row.StructScan (.ptr (.structT flds)) rec0 (.ok ⟨cols, rws⟩) c).1,
           (Row.StructScan (.ptr (.structT flds)) rec0 (.ok ⟨cols, rws⟩) c).2.1,
           ⟨true, true,
            (Row.StructScan (.ptr (.structT flds)) rec0
              (.ok ⟨cols, rws⟩) c).2.2⟩) := fun rws => rfl
  constructor
  · rw [hget [], RowStructScan_pipeline flds rec0 ⟨cols, []⟩ c hwf]
    simp [hgf, Row.Scan]
  · intro r rest
    constructor
    · rw [hget (r :: rest), hget [r],
        RowStructScan_pipeline flds rec0 ⟨cols, r :: rest⟩ c hwf,
        RowStructScan_pipeline flds rec0 ⟨cols, [r]⟩ c hwf]
      simp [hgf, Row.Scan]
    · rw [hget (r :: rest),
        RowStructScan_pipeline flds rec0 ⟨cols, r :: rest⟩ c hwf]
      simp [hgf, Row.Scan]

theorem lastResolvedIdx_complete (flds : List GoField) (i : Nat) (f : GoField)
    (n : String) (hf : flds[i]? = some f) (hr : resolveName f = n)
    (hmax : ∀ (j : Nat) (f2 : GoField), i < j → flds[j]? = some f2 →
      resolveName f2 ≠ n) :
    lastResolvedIdx n flds = some i := by
  induction flds generalizing i with
  | nil => simp at hf
  | cons g rest ih =>
    cases i with
    | zero =>
      have hgf : g = f := by simpa using hf
      subst hgf
      have hnone : lastResolvedIdx n rest = none := by
        cases hl : lastResolvedIdx n rest with
        | none => rfl
        | some k =>
          obtain ⟨f2, hf2, hr2, -⟩ := lastResolvedIdx_eq_some n rest k hl
          exact absurd hr2 (hmax (k + 1) f2 (by omega) (by simpa using hf2))
      simp [lastResolvedIdx, hnone, hr]
    | succ i0 =>
      have hf0 : rest[i0]? = some f := by simpa using hf
      have hmax0 : ∀ (j : Nat) (f2 : GoField), i0 < j → rest[j]? = some f2 →
          resolveName f2 ≠ n := by
        intro j f2 hj hg2
        exact hmax (j + 1) f2 (by omega) (by simpa using hg2)
      have hres := ih i0 hf0 hmax0
      simp [lastResolvedIdx, hres]

/-- Claim C4 (failing case): a Get whose result set carries an unmapped
column returns the unmapped-column error with the cursor obtained but never
closed — Row.StructScan's early error returns happen before the deferred
rows.Close inside Row.Scan.  Select, on the very same result set, does
close the cursor (its defer is installed right after the query). -/
theorem Get_leaks_cursor_on_early_error :
    Get (.ptr (.structT exType)) (zeroRecord exType)
        (.ok ⟨["email"], [[.vstr "x"]]⟩) [] =
      ((some (.unmappedColumn "email"), zeroRecord exType),
       [(.structT exType, buildFieldmap exType)], ⟨true, true, false⟩) ∧
    Select (.ptr (.slice (.structT exType))) []
        (.ok ⟨["email"], [[.vstr "x"]]⟩) [] =
      ((some (.unmappedColumn "email"), []),
       [(.structT exType, buildFieldmap exType)], ⟨true, true, true⟩) := by
  constructor
  · rfl
  · rfl

/-- Claim C5 (counterexample): with a non-pointer destination the engine
does return the invalid-destination error, but only after the query has
been executed and a live cursor obtained — the trace records
queried = true and obtained = true, so the check does not happen before
the query as the claim states. -/
theorem Select_Get_invalid_dest_after_query_cex :
    (Select (.prim "int") [] (.ok ⟨["id"], [[.vint 1]]⟩) []).2.2
      = ⟨true, true, true⟩ ∧
    (Select (.prim "int") [] (.ok ⟨["id"], [[.vint 1]]⟩) []).1.1
      = some .notAPointer ∧
    (Get (.prim "int") [] (.ok ⟨["id"], [[.vint 1]]⟩) []).2.2
      = ⟨true, true, false⟩ ∧
    (Get (.prim "int") [] (.ok ⟨["id"], [[.vint 1]]⟩) []).1.1
      = some .notAPointer :=
  ⟨rfl, rfl, rfl, rfl⟩

/-- Claim C5 (amended): for every destination type that is not a pointer,
Select and Get fail with the invalid-destination (not-a-pointer) error and
leave the destination unchanged, but the check fires only after the query
has been executed and a cursor obtained; Select closes that cursor via its
deferred close while Get returns without closing it. -/
theorem Select_Get_not_pointer_dest_error
    (destTy : GoType) (h : destTy.isPtr = false)
    (dest0 : List (List Value)) (rec0 : List Value) (rs : ResultSet)
    (c : Cache) :
    Select destTy dest0 (.ok rs) c
      = ((some .notAPointer, dest0), c, ⟨true, true, true⟩) ∧
    Get destTy rec0 (.ok rs) c
      = ((some .notAPointer, rec0), c, ⟨true, true, false⟩) := by
  cases destTy with
  | ptr t => simp [GoType.isPtr] at h
  | structT fs => exact ⟨rfl, rfl⟩
  | slice t => exact ⟨rfl, rfl⟩
  | prim n => exact ⟨rfl, rfl⟩

theorem Select_Get_not_pointer_dest_error_witness :
    (GoType.prim "string").isPtr = false ∧
    (Select (.prim "string") [] (.ok ⟨["a"], []⟩) []
       = ((some .notAPointer, []), [], ⟨true, true, true⟩) ∧
     Get (.prim "string") [] (.ok ⟨["a"], []⟩) []
       = ((some .notAPointer, []), [], ⟨true, true, false⟩)) :=
  ⟨rfl, Select_Get_not_pointer_dest_error (.prim "string") rfl [] []
    ⟨["a"], []⟩ []⟩

/-- Claim C6: the fieldmap the descriptor builder produces maps a name to a
position i exactly when field i resolves to that name — the db tag verbatim
when non-empty, otherwise the declared name folded to lower case — and no
field after i (fields are visited exactly once, in declaration order, so a
later write to the same name wins) resolves to the same name. -/
theorem buildFieldmap_resolution (flds : List GoField) (n : String) (i : Nat) :
    mapGet (buildFieldmap flds) n = some i ↔
      ∃ hi : i < flds.length,
        (if flds[i].tag ≠ "" then flds[i].tag else lowerString flds[i].name)
          = n ∧
        ∀ (j : Nat), (hj : j < flds.length) → i < j →
          (if flds[j].tag ≠ "" then flds[j].tag else lowerString flds[j].name)
            ≠ n := by
  rw [mapGet_buildFieldmap]
  constructor
  · intro h
    obtain ⟨f, hf, hr, hmax⟩ := lastResolvedIdx_eq_some n flds i h
    have hi : i < flds.length := (List.getElem?_eq_some_iff.mp hf).1
    have hfi : flds[i] = f := by
      have hh := List.getElem?_eq_getElem hi
      rw [hf] at hh
      exact (Option.some_inj.mp hh).symm
    refine ⟨hi, ?_, ?_⟩
    · rw [hfi]
      exact hr
    · intro j hj hij
      have hfj : flds[j]? = some flds[j] := List.getElem?_eq_getElem hj
      exact hmax j flds[j] hij hfj
  · rintro ⟨hi, hres, hmax⟩
    refine lastResolvedIdx_complete flds i flds[i] n
      (List.getElem?_eq_getElem hi) hres ?_
    intro j f2 hij hfj
    have hj : j < flds.length := (List.getElem?_eq_some_iff.mp hfj).1
    have hfj2 : flds[j] = f2 := by
      have hh := List.getElem?_eq_getElem hj
      rw [hfj] at hh
      exact (Option.some_inj.mp hh).symm
    rw [← hfj2]
    exact hmax j hj hij

theorem buildFieldmap_resolution_witness :
    mapGet (buildFieldmap exType) "name" = some 1 :=
  (buildFieldmap_resolution exType "name" 1).mpr
    ⟨by decide, by decide, by decide⟩

/-- Claim C7: descriptor construction is idempotent — after a first
getFieldmap call for a struct type returns a fieldmap and a cache state,
a second call on that state returns the very same fieldmap and leaves the
cache unchanged, and the entry it reads is exactly the one the first call
stored. -/
theorem getFieldmap_idempotent (flds : List GoField) (c : Cache)
    (fm : Fieldmap) (c1 : Cache)
    (h : getFieldmap (.structT flds) c = (.ok fm, c1)) :
    getFieldmap (.structT flds) c1 = (.ok fm, c1) ∧
      mapGet c1 (.structT flds) = some fm := by
  cases hc : mapGet c (.structT flds) with
  | none =>
    have hrun : getFieldmap (.structT flds) c
        = (.ok (buildFieldmap flds),
           mapSet c (.structT flds) (buildFieldmap flds)) := by
      simp [getFieldmap, BaseStructType, hc]
    rw [hrun] at h
    have hfm : Except.ok (ε := GoError) (buildFieldmap flds) = .ok fm :=
      congrArg Prod.fst h
    have hfm2 : buildFieldmap flds = fm := by
      injection hfm with hh
    have hc1 : mapSet c (.structT flds) (buildFieldmap flds) = c1 :=
      congrArg Prod.snd h
    subst hfm2
    subst hc1
    have hget : mapGet (mapSet c (.structT flds) (buildFieldmap flds))
        (.structT flds) = some (buildFieldmap flds) := by
      rw [mapGet_mapSet]
      simp
    exact ⟨by simp [getFieldmap, BaseStructType, hget], hget⟩
  | some fm0 =>
    have hrun : getFieldmap (.structT flds) c = (.ok fm0, c) := by
      simp [getFieldmap, BaseStructType, hc]
    rw [hrun] at h
    have hfm : Except.ok (ε := GoError) fm0 = .ok fm := congrArg Prod.fst h
    have hfm2 : fm0 = fm := by
      injection hfm with hh
    have hc1 : c = c1 := congrArg Prod.snd h
    subst hfm2
    subst hc1
    exact ⟨by simp [getFieldmap, BaseStructType, hc], hc⟩

theorem getFieldmap_idempotent_witness :
    getFieldmap (.structT exType) []
      = (.ok (buildFieldmap exType),
         [(GoType.structT exType, buildFieldmap exType)]) ∧
    (getFieldmap (.structT exType)
        [(GoType.structT exType, buildFieldmap exType)]
       = (.ok (buildFieldmap exType),
          [(GoType.structT exType, buildFieldmap exType)]) ∧
     mapGet [(GoType.structT exType, buildFieldmap exType)]
        (GoType.structT exType)
       = some (buildFieldmap exType)) :=
  ⟨rfl, getFieldmap_idempotent exType [] (buildFieldmap exType)
    [(GoType.structT exType, buildFieldmap exType)] rfl⟩

/-- Claim C8: when, during Select's row loop, a row fails to scan, the loop
aborts and returns that first scan error, and the destination slice retains
exactly the records appended for the rows scanned before the failure (no
rollback), alongside the non-nil error. -/
theorem Select_partial_results_on_scan_error
    (flds : List GoField) (cols : List String)
    (good : List (List Value)) (bad : List Value) (rest : List (List Value))
    (dest0 : List (List Value)) (c : Cache) (e : GoError)
    (hwf : CacheWF c)
    (hcols : ∀ cn ∈ cols, cn ∈ flds.map resolveName)
    (hgood : ∀ r ∈ good, (scanOne flds (resolveFields flds cols) r).1 = none)
    (hbad : (scanOne flds (resolveFields flds cols) bad).1 = some e) :
    Select (.ptr (.slice (.structT flds))) dest0
        (.ok ⟨cols, good ++ bad :: rest⟩) c
      = ((some e,
          dest0 ++
            good.map (fun r => (scanOne flds (resolveFields flds cols) r).2)),
         (getFieldmap (.structT flds) c).2, ⟨true, true, true⟩) := by
  have hgf := getFields_resolveFields flds cols hcols
  have hpipe := StructScan_pipeline flds dest0 ⟨cols, good ++ bad :: rest⟩ c hwf
  have hsel : Select (.ptr (.slice (.structT flds))) dest0
        (.ok ⟨cols, good ++ bad :: rest⟩) c
      = ((StructScan (.ptr (.slice (.structT flds))) dest0
           ⟨cols, good ++ bad :: rest⟩ c).1,
         (StructScan (.ptr (.slice (.structT flds))) dest0
           ⟨cols, good ++ bad :: rest⟩ c).2,
         (⟨true, true, true⟩ : Trace)) := rfl
  rw [hsel, hpipe]
  dsimp only
  rw [hgf]
  dsimp only
  rw [scanRows_first_err flds (resolveFields flds cols) dest0 good bad rest e
    hgood hbad]

theorem Select_partial_results_on_scan_error_witness :
    ((∀ cn ∈ ["id", "name"], cn ∈ exType.map resolveName) ∧
     (∀ r ∈ [[Value.vint 1, Value.vstr "a"]],
       (scanOne exType (resolveFields exType ["id", "name"]) r).1 = none) ∧
     (scanOne exType (resolveFields exType ["id", "name"])
        [Value.vstr "x", Value.vstr "y"]).1 = some (.scanErr 0)) ∧
    Select (.ptr (.slice (.structT exType))) []
        (.ok ⟨["id", "name"],
              [[Value.vint 1, Value.vstr "a"]] ++
                [Value.vstr "x", Value.vstr "y"] ::
                  [[Value.vint 9, Value.vstr "z"]]⟩) []
      = ((some (.scanErr 0),
          [] ++ [[Value.vint 1, Value.vstr "a"]].map
            (fun r => (scanOne exType (resolveFields exType ["id", "name"]) r).2)),
         (getFieldmap (.structT exType) []).2, ⟨true, true, true⟩) :=
  ⟨⟨by decide, by decide, by decide⟩,
   Select_partial_results_on_scan_error exType ["id", "name"]
     [[Value.vint 1, Value.vstr "a"]] [Value.vstr "x", Value.vstr "y"]
     [[Value.vint 9, Value.vstr "z"]] [] [] (.scanErr 0) cacheWF_nil
     (by decide) (by decide) (by decide)⟩

/-- Claim C10: for a pointer-to-struct destination whose fieldmap and
column resolution succeed, Rows.StructScan returns nil whatever the current
row holds — the return value of the embedded Scan call (decode failure, or
Scan without a current row) is computed and discarded, never propagated. -/
theorem RowsStructScan_discards_scan_error
    (flds : List GoField) (cols : List String) (rec0 : List Value)
    (curRow : Option (List Value)) (c : Cache)
    (hwf : CacheWF c)
    (hcols : ∀ cn ∈ cols, cn ∈ flds.map resolveName) :
    (Rows.StructScan (.ptr (.structT flds)) rec0 cols curRow
       ⟨false, []⟩ c).1.1 = none := by
  have hgf := getFields_resolveFields flds cols hcols
  obtain ⟨c1, hfm, -⟩ := getFieldmap_struct_wf flds c hwf
  simp [Rows.StructScan, hfm, hgf]

theorem RowsStructScan_discards_scan_error_witness :
    ((∀ cn ∈ ["id", "name"], cn ∈ exType.map resolveName) ∧
     (Rows.StructScan (.ptr (.structT exType)) (zeroRecord exType)
        ["id", "name"] (some [Value.vstr "bad", Value.vstr "Ann"])
        ⟨false, []⟩ []).1.1 = none) ∧
    (sqlRowsScan (exType.map GoField.ftype) [0, 1]
       (some [Value.vstr "bad", Value.vstr "Ann"]) (zeroRecord exType)).1
      = some (.scanErr 0) :=
  ⟨⟨by decide,
    RowsStructScan_discards_scan_error exType ["id", "name"]
      (zeroRecord exType) (some [Value.vstr "bad", Value.vstr "Ann"]) []
      cacheWF_nil (by decide)⟩, by decide⟩

theorem Select_populates_per_row_any_column_order_witness :
    ((["name", "id"].Perm (exType.map resolveName)) ∧
     (exType.map resolveName).Nodup ∧
     (∀ row ∈ [[Value.vstr "Ann", Value.vint 7]],
        row.length = ["name", "id"].length) ∧
     (∀ row ∈ [[Value.vstr "Ann", Value.vint 7]], ∀ (j : Nat),
        (hj : j < ["name", "id"].length) →
        (row[j]?).map valueType = colFieldType exType (["name", "id"][j]))) ∧
    (∃ c1 recs,
      Select (.ptr (.slice (.structT exType))) []
          (.ok ⟨["name", "id"], [[Value.vstr "Ann", Value.vint 7]]⟩) [] =
        ((none, [] ++ recs), c1, ⟨true, true, true⟩) ∧
      recs.length = [[Value.vstr "Ann", Value.vint 7]].length ∧
      ∀ (r i j : Nat), (hr : r < [[Value.vstr "Ann", Value.vint 7]].length) →
        (hi : i < exType.length) → (hj : j < ["name", "id"].length) →
        resolveName exType[i] = ["name", "id"][j] →
        ∃ rec row, recs[r]? = some rec ∧
          [[Value.vstr "Ann", Value.vint 7]][r]? = some row ∧
          rec[i]? = row[j]?) :=
  ⟨⟨by decide, by decide, by decide, by decide⟩,
   Select_populates_per_row_any_column_order exType ["name", "id"]
     [[Value.vstr "Ann", Value.vint 7]] [] [] cacheWF_nil (by decide)
     (by decide) (by decide) (by decide)⟩

theorem Select_Get_unmapped_column_fail_fast_witness :
    ((∀ cn ∈ ["id"], cn ∈ exType.map resolveName) ∧
     "email" ∉ exType.map resolveName) ∧
    ∀ rows : List (List Value),
      Select (.ptr (.slice (.structT exType))) []
          (.ok ⟨["id"] ++ "email" :: [], rows⟩) []
        = ((some (.unmappedColumn "email"), []),
           (getFieldmap (.structT exType) []).2, ⟨true, true, true⟩) ∧
      Get (.ptr (.structT exType)) (zeroRecord exType)
          (.ok ⟨["id"] ++ "email" :: [], rows⟩) []
        = ((some (.unmappedColumn "email"), zeroRecord exType),
           (getFieldmap (.structT exType) []).2, ⟨true, true, false⟩) :=
  ⟨⟨by decide, by decide⟩,
   Select_Get_unmapped_column_fail_fast exType ["id"] "email" [] []
     (zeroRecord exType) [] cacheWF_nil (by decide) (by decide)⟩

theorem Get_noRows_and_first_row_only_witness :
    (∀ cn ∈ ["id", "name"], cn ∈ exType.map resolveName) ∧
    (Get (.ptr (.structT exType)) (zeroRecord exType)
        (.ok ⟨["id", "name"], []⟩) []
      = ((some .noRows, zeroRecord exType),
         (getFieldmap (.structT exType) []).2, ⟨true, true, true⟩) ∧
     ∀ (r : List Value) (rest : List (List Value)),
       Get (.ptr (.structT exType)) (zeroRecord exType)
           (.ok ⟨["id", "name"], r :: rest⟩) []
         = Get (.ptr (.structT exType)) (zeroRecord exType)
             (.ok ⟨["id", "name"], [r]⟩) [] ∧
       (Get (.ptr (.structT exType)) (zeroRecord exType)
           (.ok ⟨["id", "name"], r :: rest⟩) []).1
         = scanInto (exType.map GoField.ftype)
             (resolveFields exType ["id", "name"]) r (zeroRecord exType)) :=
  ⟨by decide,
   Get_noRows_and_first_row_only exType ["id", "name"] (zeroRecord exType) []
     cacheWF_nil (by decide)⟩

end Sqlx
